import Mathlib

/-!
Verification development for the image-processing pipeline of
`image_processor.py` (class `ImageProcessor`).

Modelling conventions (shallow embedding):

* A pixel buffer is a structure `Image` carrying its height, width, channel
  count and a total sample function `px : channel → row → col → ℕ`; samples
  are `uint8` values, so every meaningful sample is ≤ 255 (stated as a
  hypothesis where a proof needs it).
* Float arithmetic of the source is modelled by exact rational arithmetic
  (e.g. the literal `2.55` becomes `51/20`); OpenCV's `cvRound` (round half
  to even) and `saturate_cast<uchar>` are modelled exactly.
* Python `int()` applied to a float truncates toward zero; it is modelled
  by `pyint`.
* OpenCV primitives whose kernels involve transcendental values
  (`GaussianBlur` with an explicit sigma, `bilateralFilter`, colour-space
  conversions, the Gaussian-weighted local mean of `adaptiveThreshold`,
  `getRotationMatrix2D`'s cosine/sine, `warpAffine`/`warpPerspective`
  resampling) are treated as opaque external collaborators: they are fields
  of a `Filters` record, and theorems that need one of their documented
  contracts (e.g. "the warped output has exactly the requested size")
  take that contract as an explicit hypothesis.
  Everything else — the arithmetic of `convertScaleAbs`, `addWeighted`,
  `filter2D`, `adaptiveThreshold`'s comparison, the bitwise composite,
  cropping, canvas-size computations, the pipeline control flow and the
  orchestrator state — is translated concretely from the source.
-/

/-- Truncation toward zero of a rational, the semantics of Python `int()`
applied to a float value. -/
def pyint (q : ℚ) : ℤ := if q < 0 then -⌊-q⌋ else ⌊q⌋

/-- OpenCV rounding `cvRound`: round to nearest, ties to even. -/
def cvRound (q : ℚ) : ℤ :=
  if q - (⌊q⌋ : ℚ) < 1/2 then ⌊q⌋
  else if 1/2 < q - (⌊q⌋ : ℚ) then ⌊q⌋ + 1
  else if ⌊q⌋ % 2 = 0 then ⌊q⌋ else ⌊q⌋ + 1

/-- OpenCV saturation `saturate_cast<uchar>` on an integer: clamp into `[0, 255]`. -/
def satCast (z : ℤ) : ℕ := (max 0 (min 255 z)).toNat

/-- Round a rational with `cvRound` and saturate to `uint8`, the per-sample
output conversion of OpenCV arithmetic primitives on 8-bit images. -/
def satRound (q : ℚ) : ℕ := satCast (cvRound q)

theorem satCast_le_255 (z : ℤ) : satCast z ≤ 255 := by
  unfold satCast
  omega

theorem satRound_le_255 (q : ℚ) : satRound q ≤ 255 := satCast_le_255 _

theorem cvRound_natCast (n : ℕ) : cvRound (n : ℚ) = n := by
  unfold cvRound
  norm_num

theorem cvRound_intCast (z : ℤ) : cvRound (z : ℚ) = z := by
  unfold cvRound
  norm_num

theorem satRound_natCast (n : ℕ) (h : n ≤ 255) : satRound (n : ℚ) = n := by
  unfold satRound
  rw [cvRound_natCast]
  unfold satCast
  omega

/-- A pixel buffer: height, width, channel count and a total sample map
(channel, row, column ↦ sample value). -/
structure Image where
  height : ℕ
  width : ℕ
  channels : ℕ
  px : ℕ → ℕ → ℕ → ℕ

/-- The constant image, used as a concrete test input. -/
def constImage (h w c v : ℕ) : Image := ⟨h, w, c, fun _ _ _ => v⟩

-- sanity checks on the numeric base
example : pyint (22/13) = 1 := by norm_num [pyint]
example : round ((22 : ℚ)/13) = 2 := by norm_num [round_eq]
example : cvRound (51/2) = 26 := by norm_num [cvRound]
example : cvRound (49/2) = 24 := by norm_num [cvRound]
example : satRound (-255) = 0 := by
  have : ((-255 : ℤ) : ℚ) = (-255 : ℚ) := by norm_num
  rw [satRound, ← this, cvRound_intCast]; decide
example : satRound (|(0 : ℚ) + (-100) * (51/20)|) = 255 := by
  have h : |(0 : ℚ) + (-100) * (51/20)| = ((255 : ℕ) : ℚ) := by norm_num
  rw [h, satRound_natCast] ; norm_num

/-- Affine 2×3 transform matrix, rows `(a b c)` and `(d e f)`, as produced by
`cv2.getRotationMatrix2D` and consumed by `cv2.warpAffine`. -/
structure Mat23 where
  a : ℚ
  b : ℚ
  c : ℚ
  d : ℚ
  e : ℚ
  f : ℚ

/-- Projective 3×3 transform matrix for `cv2.warpPerspective`. -/
structure Mat33 where
  r00 : ℚ
  r01 : ℚ
  r02 : ℚ
  r10 : ℚ
  r11 : ℚ
  r12 : ℚ
  r20 : ℚ
  r21 : ℚ
  r22 : ℚ

/-- Matrix product of two 3×3 matrices, the `np.dot(translation_matrix, perspective_matrix)`
step of `apply_perspective_transform`. -/
def mul33 (p q : Mat33) : Mat33 :=
  ⟨p.r00 * q.r00 + p.r01 * q.r10 + p.r02 * q.r20,
   p.r00 * q.r01 + p.r01 * q.r11 + p.r02 * q.r21,
   p.r00 * q.r02 + p.r01 * q.r12 + p.r02 * q.r22,
   p.r10 * q.r00 + p.r11 * q.r10 + p.r12 * q.r20,
   p.r10 * q.r01 + p.r11 * q.r11 + p.r12 * q.r21,
   p.r10 * q.r02 + p.r11 * q.r12 + p.r12 * q.r22,
   p.r20 * q.r00 + p.r21 * q.r10 + p.r22 * q.r20,
   p.r20 * q.r01 + p.r21 * q.r11 + p.r22 * q.r21,
   p.r20 * q.r02 + p.r21 * q.r12 + p.r22 * q.r22⟩

/-- The OpenCV primitives the source calls whose numeric kernels involve
transcendental values (Gaussian/bilateral kernels, colour-space conversions,
the cosine/sine pair of `getRotationMatrix2D`, the warp resamplers, the
perspective-matrix solver, and the Gaussian-weighted local mean used by
`adaptiveThreshold` with block size 25).  They are opaque collaborators of
the embedding; theorems that need one of their documented contracts state
that contract as an explicit hypothesis. -/
structure Filters where
  cosSin : ℤ → ℚ × ℚ
  warpAffine : Mat23 → ℕ → ℕ → Image → Image
  getPerspectiveTransform :
    ℚ × ℚ → ℚ × ℚ → ℚ × ℚ → ℚ × ℚ → ℚ × ℚ → ℚ × ℚ → ℚ × ℚ → ℚ × ℚ → Mat33
  warpPerspective : Mat33 → ℕ → ℕ → Image → Image
  gaussianBlur : ℕ → ℚ → Image → Image
  bilateralFilter : ℕ → ℚ → ℚ → Image → Image
  cvtBGR2GRAY : Image → Image
  cvtBGR2LAB : Image → Image
  cvtLAB2BGR : Image → Image
  gaussMean25 : Image → ℕ → ℕ → ℚ

/-- Embedding of `cv2.addWeighted(a, alpha, b, beta, gamma)` on 8-bit images:
per-sample `saturate(round(alpha*a + beta*b + gamma))`; the output takes its
geometry from the first operand. -/
def addWeighted (a : Image) (alpha : ℚ) (b : Image) (beta gamma : ℚ) : Image :=
  ⟨a.height, a.width, a.channels, fun c y x =>
    satRound (alpha * a.px c y x + beta * b.px c y x + gamma)⟩

/-- Embedding of `cv2.convertScaleAbs(img, alpha, beta)`: per-sample
`saturate_cast<uchar>(round(|alpha*sample + beta|))` — note the absolute
value, which is part of the OpenCV primitive. -/
def convertScaleAbs (img : Image) (alpha beta : ℚ) : Image :=
  ⟨img.height, img.width, img.channels, fun c y x =>
    satRound |alpha * img.px c y x + beta|⟩

/-- Embedding of `ImageProcessor.adjust_contrast` (image_processor.py:927). -/
def adjust_contrast (image : Image) (contrast : ℚ) : Image :=
  convertScaleAbs image contrast 0

/-- Embedding of `ImageProcessor.adjust_brightness` (image_processor.py:931): the slider
value in `[-100,100]` is scaled by `2.55` (= `51/20`) and fed to
`convertScaleAbs` as the additive `beta`. -/
def adjust_brightness (image : Image) (brightness : ℤ) : Image :=
  convertScaleAbs image 1 (brightness * (51/20))

/-- Border indexing in the reflect-101 style (`cv2.BORDER_REFLECT_101`, the `filter2D`
default): `-1 ↦ 1` and `n ↦ n-2`. -/
def reflect101 (n : ℕ) (i : ℤ) : ℕ :=
  if i < 0 then (-i).toNat
  else if (n : ℤ) ≤ i then (2 * ((n : ℤ) - 1) - i).toNat
  else i.toNat

/-- The 3×3 neighbourhood offsets of a 3×3 correlation kernel. -/
def nbhd3 : List (ℤ × ℤ) :=
  [(-1, -1), (-1, 0), (-1, 1), (0, -1), (0, 0), (0, 1), (1, -1), (1, 0), (1, 1)]

/-- Embedding of `cv2.filter2D(img, -1, k)` with a 3×3 kernel `k` (indexed by row and
column offset from the centre anchor): correlation with reflect-101 border
handling, output saturated back to `uint8`. -/
def filter2D (img : Image) (k : ℤ → ℤ → ℚ) : Image :=
  ⟨img.height, img.width, img.channels, fun c y x =>
    satRound (List.foldl
      (fun acc o =>
        acc + k o.1 o.2 *
          img.px c (reflect101 img.height (y + o.1)) (reflect101 img.width (x + o.2)))
      0 nbhd3)⟩

/-- The kernel built by `adjust_sharpness` (image_processor.py:940-946):
the base unsharp kernel scaled by the weight and then the centre overwritten
with `8*sharpness + 1`; every off-centre entry is `-sharpness`. -/
def sharpenKernel (sharpness : ℚ) : ℤ → ℤ → ℚ :=
  fun dy dx => if dy = 0 ∧ dx = 0 then 8 * sharpness + 1 else -sharpness

/-- Embedding of `ImageProcessor.adjust_sharpness` (image_processor.py:937): convolve with
the sharpening kernel, then blend `original*(1-s) + sharpened*s`. -/
def adjust_sharpness (image : Image) (sharpness : ℚ) : Image :=
  addWeighted image (1 - sharpness) (filter2D image (sharpenKernel sharpness)) sharpness 0

/-- Embedding of `cv2.bitwise_and` on 8-bit images (per-sample `Nat.land`); geometry from
the first operand. -/
def bitwiseAnd (a b : Image) : Image :=
  ⟨a.height, a.width, a.channels, fun c y x => Nat.land (a.px c y x) (b.px c y x)⟩

/-- Embedding of `cv2.bitwise_not` on a `uint8` image: per-sample complement `255 - v`
(equal to the bitwise complement for samples ≤ 255). -/
def bitwiseNot (a : Image) : Image :=
  ⟨a.height, a.width, a.channels, fun c y x => 255 - a.px c y x⟩

/-- Embedding of `cv2.add` on 8-bit images: saturating per-sample addition. -/
def satAdd (a b : Image) : Image :=
  ⟨a.height, a.width, a.channels, fun c y x => min 255 (a.px c y x + b.px c y x)⟩

/-- Sample lookup at possibly-negative integer coordinates (0 outside on the
negative side; border handling is immaterial here because the only
structuring element ever used is the single-cell one). -/
def pxZ (img : Image) (c : ℕ) (y x : ℤ) : ℕ :=
  if 0 ≤ y ∧ 0 ≤ x then img.px c y.toNat x.toNat else 0

/-- Embedding of `cv2.dilate` with a structuring element given as its list of active
offsets: per-sample maximum over the neighbourhood. -/
def dilate (se : List (ℤ × ℤ)) (img : Image) : Image :=
  ⟨img.height, img.width, img.channels, fun c y x =>
    List.foldl (fun acc o => max acc (pxZ img c (y + o.1) (x + o.2))) 0 se⟩

/-- Embedding of `cv2.adaptiveThreshold(src, 255, ADAPTIVE_THRESH_GAUSSIAN_C,
THRESH_BINARY_INV, 25, 15)`: the local threshold is the Gaussian-weighted
neighbourhood mean (block size 25, supplied by `Filters.gaussMean25`) minus
the constant offset 15; with inverted polarity the output is 0 where the
source sample exceeds the threshold and 255 otherwise. -/
def adaptiveThresholdInvGauss (F : Filters) (src : Image) : Image :=
  ⟨src.height, src.width, 1, fun _ y x =>
    if F.gaussMean25 src y x - 15 < (src.px 0 y x : ℚ) then 0 else 255⟩

/-- Embedding of `cv2.cvtColor(img, COLOR_GRAY2BGR)`: exact replication of the single
channel into three channels (no rounding involved, so modelled concretely). -/
def cvtGRAY2BGR (img : Image) : Image :=
  ⟨img.height, img.width, 3, fun _ y x => img.px 0 y x⟩

/-- The structuring element built in `load_image_from_path` /
`update_processed_image`: `getStructuringElement(MORPH_RECT, (1,1))` is the
single-cell all-ones element, and the following `morphologyEx(se, MORPH_CLOSE,
(2,2))` applied to that 1×1 all-ones array leaves it unchanged, so the
element used by the subsequent `dilate` is the single offset `(0,0)`. -/
def seOffsets : List (ℤ × ℤ) := [(0, 0)]

/-- The load-time document cleanup applied to the decoded image
(image_processor.py:699-707): grayscale conversion, inverted Gaussian
adaptive threshold (block 25, offset 15), dilation with the 1×1 element,
then the composite `add(and(gray, mask), not(mask))`. -/
def cleanup (F : Filters) (img : Image) : Image :=
  let gray := F.cvtBGR2GRAY img
  let binary := adaptiveThresholdInvGauss F gray
  let mask := dilate seOffsets binary
  let mask1 := bitwiseNot mask
  let binary2 := bitwiseAnd gray mask
  satAdd binary2 mask1

/-- Embedding of `cv2.split` for one channel: extract channel `c` as a 1-channel image. -/
def extractChannel (img : Image) (c : ℕ) : Image :=
  ⟨img.height, img.width, 1, fun _ y x => img.px c y x⟩

/-- Embedding of `cv2.merge` of three 1-channel images into one 3-channel image. -/
def merge3 (a b c : Image) : Image :=
  ⟨a.height, a.width, 3, fun ch y x =>
    if ch = 0 then a.px 0 y x else if ch = 1 then b.px 0 y x else c.px 0 y x⟩

/-- The inner `multi_scale_filter` of `ImageProcessor.remove_moire`
(image_processor.py:963-973 and 989-999): three Gaussian blurs of the input
(3×3 σ0.5, 5×5 σ1.0, 7×7 σ1.5), the first two blended by
`addWeighted(g1, 0.4, g2, 0.4, 0)` and the result blended with the third by
`addWeighted(blended, 0.6, g3, 0.4, 0)`. -/
def multi_scale_filter (F : Filters) (image : Image) : Image :=
  let g1 := F.gaussianBlur 3 (1/2) image
  let g2 := F.gaussianBlur 5 1 image
  let g3 := F.gaussianBlur 7 (3/2) image
  let blended := addWeighted g1 (2/5) g2 (2/5) 0
  addWeighted blended (3/5) g3 (2/5) 0

/-- Embedding of `ImageProcessor.remove_moire` (image_processor.py:954): on a grayscale
image, multi-scale filter then bilateral filter; on a colour image, convert
to Lab, multi-scale filter the L channel only, merge, convert back, then
bilateral filter.  (The `image is None` early return of the source is vacuous
here because modelled images are always present.) -/
def remove_moire (F : Filters) (image : Image) : Image :=
  if image.channels = 1 then
    F.bilateralFilter 9 75 75 (multi_scale_filter F image)
  else
    let lab := F.cvtBGR2LAB image
    let lChan := extractChannel lab 0
    let aChan := extractChannel lab 1
    let bChan := extractChannel lab 2
    let lFiltered := multi_scale_filter F lChan
    let labFiltered := merge3 lFiltered aChan bChan
    let resultBgr := F.cvtLAB2BGR labFiltered
    F.bilateralFilter 9 75 75 resultBgr

/-- The moire branch of `update_processed_image` (image_processor.py:784-807):
denoise the pre-cleanup copy with `remove_moire`, rebuild the adaptive mask
from the denoised result (converting it to grayscale if it has 3 channels),
and composite against the pre-cleanup copy, replicating the mask to three
channels when the pre-cleanup copy is a colour image and the mask is
single-channel. -/
def moireStage (F : Filters) (old : Image) : Image :=
  let processed := remove_moire F old
  let gray := if processed.channels = 3 then F.cvtBGR2GRAY processed else processed
  let binary := adaptiveThresholdInvGauss F gray
  let mask := dilate seOffsets binary
  let mask1 := bitwiseNot mask
  if old.channels = 3 ∧ mask.channels = 1 then
    let mask3 := cvtGRAY2BGR mask
    let mask13 := cvtGRAY2BGR mask1
    satAdd (bitwiseAnd old mask3) mask13
  else
    satAdd (bitwiseAnd old mask) mask1

/-- Embedding of `ImageProcessor.rotate_image` (image_processor.py:846): identity at angle
0; otherwise build the rotation matrix about `(width//2, height//2)` (its
first row is `(cos, sin)` for `getRotationMatrix2D` with scale 1, supplied by
`Filters.cosSin`), size the output canvas by
`int(h*|sin| + w*|cos|) × int(h*|cos| + w*|sin|)` — Python `int()`
truncation — shift the translation entries by the canvas growth, and warp. -/
def rotate_image (F : Filters) (image : Image) (angle : ℤ) : Image :=
  if angle = 0 then image
  else
    let height := image.height
    let width := image.width
    let cx : ℕ := width / 2
    let cy : ℕ := height / 2
    let cs := F.cosSin angle
    let M : Mat23 :=
      ⟨cs.1, cs.2, (1 - cs.1) * cx - cs.2 * cy,
       -cs.2, cs.1, cs.2 * cx + (1 - cs.1) * cy⟩
    let cosVal := |M.a|
    let sinVal := |M.b|
    let newWidth := (pyint (height * sinVal + width * cosVal)).toNat
    let newHeight := (pyint (height * cosVal + width * sinVal)).toNat
    let M2 : Mat23 :=
      { M with c := M.c + ((newWidth : ℚ) / 2 - cx), f := M.f + ((newHeight : ℚ) / 2 - cy) }
    F.warpAffine M2 newWidth newHeight image

/-- Embedding of `ImageProcessor.apply_perspective_transform` (image_processor.py:877):
destination corners add each offset scaled by half the width (x) or half the
height (y); the output canvas is the bounding box of the destination points
(`int()`-truncated extents), and the projective matrix is premultiplied by
the translation moving the bounding-box origin to `(0,0)`. -/
def apply_perspective_transform (F : Filters) (image : Image)
    (tl_x tl_y tr_x tr_y bl_x bl_y br_x br_y : ℚ) : Image :=
  let height := image.height
  let width := image.width
  let oxf : ℚ := width * (1/2)
  let oyf : ℚ := height * (1/2)
  let s0 : ℚ × ℚ := (0, 0)
  let s1 : ℚ × ℚ := (width - 1, 0)
  let s2 : ℚ × ℚ := (0, height - 1)
  let s3 : ℚ × ℚ := (width - 1, height - 1)
  let d0 : ℚ × ℚ := (0 + tl_x * oxf, 0 + tl_y * oyf)
  let d1 : ℚ × ℚ := (width - 1 + tr_x * oxf, 0 + tr_y * oyf)
  let d2 : ℚ × ℚ := (0 + bl_x * oxf, height - 1 + bl_y * oyf)
  let d3 : ℚ × ℚ := (width - 1 + br_x * oxf, height - 1 + br_y * oyf)
  let P := F.getPerspectiveTransform s0 s1 s2 s3 d0 d1 d2 d3
  let minX := min (min d0.1 d1.1) (min d2.1 d3.1)
  let maxX := max (max d0.1 d1.1) (max d2.1 d3.1)
  let minY := min (min d0.2 d1.2) (min d2.2 d3.2)
  let maxY := max (max d0.2 d1.2) (max d2.2 d3.2)
  let newWidth := (pyint (maxX - minX)).toNat
  let newHeight := (pyint (maxY - minY)).toNat
  let T : Mat33 := ⟨1, 0, -minX, 0, 1, -minY, 0, 0, 1⟩
  F.warpPerspective (mul33 T P) newWidth newHeight image

/-- Embedding of `ImageProcessor.apply_blur` (image_processor.py:1013): Gaussian blur with
kernel size `2*strength + 1` (always odd) and sigma 0 (auto-selected by
kernel size inside OpenCV). -/
def apply_blur (F : Filters) (image : Image) (blurStrength : ℕ) : Image :=
  F.gaussianBlur (blurStrength * 2 + 1) 0 image

/-- Embedding of `ImageProcessor.apply_crop` (image_processor.py:1018): fractions are
converted to pixel coordinates by `int()` truncation; if `left >= right` the
horizontal range resets to the full width, if `top >= bottom` the vertical
range resets to the full height (independently); then the image is sliced
`[top:bottom, left:right]`. -/
def apply_crop (image : Image) (leftRatio topRatio rightRatio bottomRatio : ℚ) : Image :=
  let l0 := (pyint (image.width * leftRatio)).toNat
  let t0 := (pyint (image.height * topRatio)).toNat
  let r0 := (pyint (image.width * rightRatio)).toNat
  let b0 := (pyint (image.height * bottomRatio)).toNat
  let l := if r0 ≤ l0 then 0 else l0
  let r := if r0 ≤ l0 then image.width else r0
  let t := if b0 ≤ t0 then 0 else t0
  let b := if b0 ≤ t0 then image.height else b0
  ⟨b - t, r - l, image.channels, fun c y x => image.px c (t + y) (l + x)⟩

/-- The adjustable parameter set read from the sliders and checkboxes at the
top of `update_processed_image` (image_processor.py:738-758): contrast and
sharpness sliders are divided by 100, the brightness, blur and rotation
sliders are used raw, the eight corner-offset and four crop sliders are
divided by 100, plus the three boolean switches. -/
structure Params where
  contrast : ℚ
  brightness : ℤ
  sharpness : ℚ
  blur : ℕ
  rotate : ℤ
  tl_x : ℚ
  tl_y : ℚ
  tr_x : ℚ
  tr_y : ℚ
  bl_x : ℚ
  bl_y : ℚ
  br_x : ℚ
  br_y : ℚ
  crop_left : ℚ
  crop_top : ℚ
  crop_right : ℚ
  crop_bottom : ℚ
  moire : Bool
  perspective : Bool
  cropEnabled : Bool

/-- The orchestrator's image state: `original_image` holds the cleaned
baseline after a successful load (the attribute is reused: first the decode
result, then overwritten with the cleaned grayscale image),
`original_image_old` the pre-cleanup copy, `processed_image` the last
pipeline output, `original_image_path` the stored source path. -/
structure AppState where
  original_image : Option Image
  original_image_old : Option Image
  processed_image : Option Image
  original_image_path : Option String

/-- Embedding of `ImageProcessor.load_image_from_path` (image_processor.py:665-719).  The
stored path is assigned first; the three decode attempts (imdecode on the
bytes, imread on the absolute path, imread on the unicode path) are modelled
by the single `decoded` argument, which is `none` exactly when all attempts
fail; `self.original_image` receives the decode result either way.  On
success the pre-cleanup copy is captured and the cleanup composite replaces
both `original_image` and `processed_image`; on failure only an error dialog
is shown. -/
def load_image_from_path (F : Filters) (st : AppState) (filePath : String)
    (decoded : Option Image) : AppState :=
  let st1 : AppState :=
    { st with original_image_path := some filePath, original_image := decoded }
  match decoded with
  | some img =>
      { st1 with
        original_image_old := some img,
        original_image := some (cleanup F img),
        processed_image := some (cleanup F img) }
  | none => st1

/-- The gated adjustment chain of `update_processed_image`
(image_processor.py:812-841), applied to the chosen start image: perspective
(if enabled and any offset non-zero), rotation (if angle ≠ 0), contrast
(if ≠ 1), brightness (if ≠ 0), sharpening (if > 0), blur (if > 0), crop
(if enabled and the rectangle differs from the full frame), each consuming
the previous result. -/
def applyAdjustments (F : Filters) (p : Params) (start : Image) : Image :=
  let i1 :=
    if p.perspective = true ∧ (p.tl_x ≠ 0 ∨ p.tl_y ≠ 0 ∨ p.tr_x ≠ 0 ∨ p.tr_y ≠ 0 ∨
        p.bl_x ≠ 0 ∨ p.bl_y ≠ 0 ∨ p.br_x ≠ 0 ∨ p.br_y ≠ 0) then
      apply_perspective_transform F start p.tl_x p.tl_y p.tr_x p.tr_y p.bl_x p.bl_y p.br_x p.br_y
    else start
  let i2 := if p.rotate ≠ 0 then rotate_image F i1 p.rotate else i1
  let i3 := if p.contrast ≠ 1 then adjust_contrast i2 p.contrast else i2
  let i4 := if p.brightness ≠ 0 then adjust_brightness i3 p.brightness else i3
  let i5 := if 0 < p.sharpness then adjust_sharpness i4 p.sharpness else i4
  let i6 := if 0 < p.blur then apply_blur F i5 p.blur else i5
  if p.cropEnabled = true ∧ (0 < p.crop_left ∨ 0 < p.crop_top ∨
      p.crop_right < 1 ∨ p.crop_bottom < 1) then
    apply_crop i6 p.crop_left p.crop_top p.crop_right p.crop_bottom
  else i6

/-- Embedding of `ImageProcessor.update_processed_image` (image_processor.py:733-844):
return unchanged if no image is loaded (the source guards on
`original_image is None`; a state with a baseline but no pre-cleanup copy
cannot arise from `load_image_from_path` and is likewise left unchanged);
otherwise start from the moire composite of the pre-cleanup copy when the
moire switch is on, else from a copy of the cleaned baseline, run the gated
adjustment chain, and store the result as the processed image. -/
def update_processed_image (F : Filters) (p : Params) (st : AppState) : AppState :=
  match st.original_image, st.original_image_old with
  | some base, some old =>
      let start := if p.moire = true then moireStage F old else base
      { st with processed_image := some (applyAdjustments F p start) }
  | _, _ => st

/-- Channel count is preserved by `addWeighted` (it takes its geometry from
the first operand). -/
theorem addWeighted_channels (a : Image) (al : ℚ) (b : Image) (be ga : ℚ) :
    (addWeighted a al b be ga).channels = a.channels := rfl

theorem convertScaleAbs_channels (img : Image) (al be : ℚ) :
    (convertScaleAbs img al be).channels = img.channels := rfl

theorem adjust_contrast_channels (image : Image) (contrast : ℚ) :
    (adjust_contrast image contrast).channels = image.channels := rfl

theorem adjust_brightness_channels (image : Image) (brightness : ℤ) :
    (adjust_brightness image brightness).channels = image.channels := rfl

theorem adjust_sharpness_channels (image : Image) (sharpness : ℚ) :
    (adjust_sharpness image sharpness).channels = image.channels := rfl

theorem apply_crop_channels (image : Image) (l t r b : ℚ) :
    (apply_crop image l t r b).channels = image.channels := rfl

/-- Rotation preserves the channel count, given the `warpAffine` contract. -/
theorem rotate_image_channels (F : Filters)
    (hwa : ∀ M w h i, (F.warpAffine M w h i).channels = i.channels)
    (image : Image) (angle : ℤ) :
    (rotate_image F image angle).channels = image.channels := by
  unfold rotate_image
  split
  · rfl
  · exact hwa _ _ _ _

/-- Perspective warp preserves the channel count, given the `warpPerspective`
contract. -/
theorem apply_perspective_transform_channels (F : Filters)
    (hwp : ∀ M w h i, (F.warpPerspective M w h i).channels = i.channels)
    (image : Image) (a1 a2 a3 a4 a5 a6 a7 a8 : ℚ) :
    (apply_perspective_transform F image a1 a2 a3 a4 a5 a6 a7 a8).channels =
      image.channels := by
  unfold apply_perspective_transform
  exact hwp _ _ _ _

/-- Blur preserves the channel count, given the `gaussianBlur` contract. -/
theorem apply_blur_channels (F : Filters)
    (hgb : ∀ ks sigma i, (F.gaussianBlur ks sigma i).channels = i.channels)
    (image : Image) (n : ℕ) :
    (apply_blur F image n).channels = image.channels := by
  unfold apply_blur
  exact hgb _ _ _

/-- The gated adjustment chain preserves the channel count of its start
image, given the channel contracts of the three opaque resampling
primitives. -/
theorem applyAdjustments_channels (F : Filters) (p : Params)
    (hwa : ∀ M w h i, (F.warpAffine M w h i).channels = i.channels)
    (hwp : ∀ M w h i, (F.warpPerspective M w h i).channels = i.channels)
    (hgb : ∀ ks sigma i, (F.gaussianBlur ks sigma i).channels = i.channels)
    (start : Image) :
    (applyAdjustments F p start).channels = start.channels := by
  simp only [applyAdjustments, apply_ite Image.channels,
    rotate_image_channels F hwa, apply_perspective_transform_channels F hwp,
    apply_blur_channels F hgb, adjust_contrast_channels, adjust_brightness_channels,
    adjust_sharpness_channels, apply_crop_channels, ite_self]

/-- The moire composite of a colour pre-cleanup copy has three channels:
the mask is single-channel by construction, so the composite replicates it
and takes its geometry from the colour image. -/
theorem moireStage_channels (F : Filters) (old : Image) (hold : old.channels = 3) :
    (moireStage F old).channels = 3 := by
  unfold moireStage
  dsimp only
  split <;> split
  · exact hold
  · next h => exact absurd (And.intro hold rfl) h
  · exact hold
  · next h => exact absurd (And.intro hold rfl) h


/-- Concrete stand-in for the opaque OpenCV primitives, used to instantiate
hypotheses at concrete inputs: the blurs are the identity (which is exactly
how the real normalised Gaussian kernel acts on a constant image), the warps
return a blank canvas of the requested size with the input's channel count,
the cosine/sine pair is the rational unit-circle point `(5/13, 12/13)`,
grayscale conversion keeps channel 0, and the local mean is constantly 128. -/
def F0 : Filters where
  cosSin := fun _ => (5/13, 12/13)
  warpAffine := fun _ w h i => ⟨h, w, i.channels, fun _ _ _ => 0⟩
  getPerspectiveTransform := fun _ _ _ _ _ _ _ _ => ⟨1, 0, 0, 0, 1, 0, 0, 0, 1⟩
  warpPerspective := fun _ w h i => ⟨h, w, i.channels, fun _ _ _ => 0⟩
  gaussianBlur := fun _ _ i => i
  bilateralFilter := fun _ _ _ i => i
  cvtBGR2GRAY := fun i => ⟨i.height, i.width, 1, fun _ y x => i.px 0 y x⟩
  cvtBGR2LAB := fun i => i
  cvtLAB2BGR := fun i => i
  gaussMean25 := fun _ _ _ => 128

/-- Concrete single-channel baseline image for witnesses. -/
def baseImg : Image := constImage 4 4 1 7

/-- Concrete three-channel pre-cleanup copy for witnesses. -/
def oldImg : Image := constImage 4 4 3 100

/-- Concrete loaded orchestrator state for witnesses. -/
def stLoaded : AppState := ⟨some baseImg, some oldImg, some baseImg, some "scan.png"⟩

/-- The parameter set with every slider at its default and every switch off. -/
def defaultParams : Params :=
  ⟨1, 0, 0, 0, 0, 0, 0, 0, 0, 0, 0, 0, 0, 0, 0, 1, 1, false, false, false⟩

/-- Concrete 2-wide, 1-high single-channel image. -/
def imgWide : Image := ⟨1, 2, 1, fun _ _ _ => 0⟩

/-- The stage chain of claim C1, spelled out as the claim states it: the
start image is the denoise composite of the pre-cleanup copy when the moire
switch is on and the baseline otherwise, and the seven gated stages are then
applied in the fixed order perspective → rotate → contrast → brightness →
sharpen → blur → crop, each consuming the previous output. -/
def recomputeStagesClaim (F : Filters) (p : Params) (base old : Image) : Image :=
  (fun i => if p.cropEnabled = true ∧ (0 < p.crop_left ∨ 0 < p.crop_top ∨
      p.crop_right < 1 ∨ p.crop_bottom < 1) then
    apply_crop i p.crop_left p.crop_top p.crop_right p.crop_bottom else i)
  ((fun i => if 0 < p.blur then apply_blur F i p.blur else i)
  ((fun i => if 0 < p.sharpness then adjust_sharpness i p.sharpness else i)
  ((fun i => if p.brightness ≠ 0 then adjust_brightness i p.brightness else i)
  ((fun i => if p.contrast ≠ 1 then adjust_contrast i p.contrast else i)
  ((fun i => if p.rotate ≠ 0 then rotate_image F i p.rotate else i)
  ((fun i => if p.perspective = true ∧ (p.tl_x ≠ 0 ∨ p.tl_y ≠ 0 ∨ p.tr_x ≠ 0 ∨
      p.tr_y ≠ 0 ∨ p.bl_x ≠ 0 ∨ p.bl_y ≠ 0 ∨ p.br_x ≠ 0 ∨ p.br_y ≠ 0) then
    apply_perspective_transform F i p.tl_x p.tl_y p.tr_x p.tr_y p.bl_x p.bl_y p.br_x p.br_y
  else i)
  (if p.moire = true then moireStage F old else base)))))))

/-- C1: for every recompute with an image loaded, the pipeline applies its
stages in exactly the fixed order — (1) moire composite of the pre-cleanup
copy if the moire switch is on, else a copy of the baseline; (2) perspective
warp if enabled and any corner offset is non-zero; (3) rotation if the angle
is non-zero; (4) contrast if the factor differs from 1; (5) brightness if
the offset is non-zero; (6) sharpening if the weight is positive; (7) blur
if the radius is positive; (8) crop if enabled and the rectangle differs
from the full frame — each stage consuming the immediately preceding
stage's output, and the final result becoming the processed image. -/
theorem C1_recompute_fixed_order (F : Filters) (p : Params) (st : AppState)
    (base old : Image)
    (hb : st.original_image = some base) (ho : st.original_image_old = some old) :
    (update_processed_image F p st).processed_image =
      some (recomputeStagesClaim F p base old) := by
  unfold update_processed_image
  rw [hb, ho]
  rfl

/-- Witness for C1 at a concrete filter record, parameter set and loaded
state. -/
theorem C1_recompute_fixed_order_witness :
    stLoaded.original_image = some baseImg ∧
    stLoaded.original_image_old = some oldImg ∧
    (update_processed_image F0 defaultParams stLoaded).processed_image =
      some (recomputeStagesClaim F0 defaultParams baseImg oldImg) :=
  ⟨rfl, rfl, C1_recompute_fixed_order F0 defaultParams stLoaded baseImg oldImg rfl rfl⟩

/-- C2 counterexample: a decode failure does not leave the orchestrator
state unchanged — the stored path is overwritten and the baseline slot is
cleared, so the resulting state differs from the prior loaded state. -/
theorem C2_load_failure_counterexample :
    load_image_from_path F0 stLoaded "other.png" none ≠ stLoaded := by
  intro h
  have hp := congrArg AppState.original_image_path h
  simp only [load_image_from_path, stLoaded] at hp
  have : "other.png" = "scan.png" := Option.some.inj hp
  exact absurd this (by decide)

/-- C2 amended: if load is given a file whose bytes fail to decode, the
stored original-image path is overwritten with the new path and the
raw/baseline image slot is cleared to `none` (a previously loaded baseline
is no longer available there); the pre-cleanup copy and the processed image
are left unchanged. -/
theorem C2_load_failure_amended (F : Filters) (st : AppState) (filePath : String) :
    load_image_from_path F st filePath none =
      { st with original_image_path := some filePath, original_image := none } := rfl


/-- Modelled from the spec's words for comparison (claim C3): the claimed
per-sample brightness map `clamp(sample + offset*2.55, 0, 255)`, integerised
with the same rounding OpenCV uses but with no absolute value. -/
def brightnessSpecSample (s : ℕ) (offset : ℤ) : ℕ :=
  satCast (cvRound ((s : ℚ) + offset * (51/20)))

/-- C3 counterexample: at sample value 0 and offset −100 (inside the
documented range) the code returns 255 — `convertScaleAbs` takes an absolute
value before clamping — while the claimed map `clamp(s + offset*2.55, 0,
255)` returns 0; in particular this negative offset made a sample strictly
larger, refuting the monotonicity part of the claim as well. -/
theorem C3_brightness_counterexample :
    (-100 : ℤ) ≤ -100 ∧ (-100 : ℤ) ≤ 100 ∧
    (adjust_brightness (constImage 1 1 1 0) (-100)).px 0 0 0 = 255 ∧
    brightnessSpecSample ((constImage 1 1 1 0).px 0 0 0) (-100) = 0 ∧
    (constImage 1 1 1 0).px 0 0 0 <
      (adjust_brightness (constImage 1 1 1 0) (-100)).px 0 0 0 := by
  have hcode : (adjust_brightness (constImage 1 1 1 0) (-100)).px 0 0 0 = 255 := by
    show satRound |(1 : ℚ) * ((0 : ℕ) : ℚ) + ((-100 : ℤ) : ℚ) * (51/20)| = 255
    have habs : |(1 : ℚ) * ((0 : ℕ) : ℚ) + ((-100 : ℤ) : ℚ) * (51/20)| = ((255 : ℕ) : ℚ) := by
      push_cast
      norm_num
    rw [habs, satRound_natCast]
    norm_num
  have hspec : brightnessSpecSample ((constImage 1 1 1 0).px 0 0 0) (-100) = 0 := by
    show satCast (cvRound (((0 : ℕ) : ℚ) + ((-100 : ℤ) : ℚ) * (51/20))) = 0
    have hv : ((0 : ℕ) : ℚ) + ((-100 : ℤ) : ℚ) * (51/20) = ((-255 : ℤ) : ℚ) := by
      push_cast
      norm_num
    rw [hv, cvRound_intCast]
    decide
  refine ⟨le_refl _, by norm_num, hcode, hspec, ?_⟩
  rw [hcode]
  show 0 < 255
  norm_num

/-- C3 amended: for every image and offset in `[-100,100]`, the brightness
stage maps each sample `s` to `clamp(round(|s + offset*2.55|), 0, 255)` —
`convertScaleAbs` applies an absolute value before clamping — so a negative
offset can make a dark sample come out brighter (e.g. sample 0 at offset
−100 yields 255). -/
theorem C3_brightness_amended (img : Image) (offset : ℤ)
    (h1 : -100 ≤ offset) (h2 : offset ≤ 100) (c y x : ℕ) :
    (adjust_brightness img offset).px c y x =
      satCast (cvRound |(img.px c y x : ℚ) + offset * (51/20)|) := by
  simp [adjust_brightness, convertScaleAbs, satRound, one_mul]

/-- Witness for the amended C3 at a concrete image and offset. -/
theorem C3_brightness_amended_witness :
    (-100 : ℤ) ≤ -10 ∧ (-10 : ℤ) ≤ 100 ∧
    (adjust_brightness (constImage 1 1 1 5) (-10)).px 0 0 0 =
      satCast (cvRound |((constImage 1 1 1 5).px 0 0 0 : ℚ) + (-10) * (51/20)|) :=
  ⟨by norm_num, by norm_num,
   C3_brightness_amended (constImage 1 1 1 5) (-10) (by norm_num) (by norm_num) 0 0 0⟩

/-- C4 counterexample: with the rational unit cosine/sine pair
`(5/13, 12/13)` and a 1-high, 2-wide image, the code computes the canvas
width as `int(1*(12/13) + 2*(5/13)) = int(22/13) = 1` (Python truncation),
while rounding to nearest — what the claim states — gives 2; all side
conditions of the claim (non-zero angle, unit cosine/sine pair, exact-size
warp contract) hold at this instance. -/
theorem C4_rotate_dims_counterexample :
    (F0.cosSin 37).1 ^ 2 + (F0.cosSin 37).2 ^ 2 = 1 ∧
    (∀ M w h i, (F0.warpAffine M w h i).width = w ∧ (F0.warpAffine M w h i).height = h) ∧
    (37 : ℤ) ≠ 0 ∧
    ((rotate_image F0 imgWide 37).width : ℤ) ≠
      round ((imgWide.height : ℚ) * |(F0.cosSin 37).2| +
             (imgWide.width : ℚ) * |(F0.cosSin 37).1|) := by
  refine ⟨by norm_num [F0], fun M w h i => ⟨rfl, rfl⟩, by norm_num, ?_⟩
  have habs1 : |(12/13 : ℚ)| = 12/13 := abs_of_nonneg (by norm_num)
  have habs2 : |(5/13 : ℚ)| = 5/13 := abs_of_nonneg (by norm_num)
  have hw : (rotate_image F0 imgWide 37).width =
      (pyint ((1 : ℚ) * |(12/13 : ℚ)| + (2 : ℚ) * |(5/13 : ℚ)|)).toNat := rfl
  rw [hw]
  have h1 : (pyint ((1 : ℚ) * |(12/13 : ℚ)| + (2 : ℚ) * |(5/13 : ℚ)|)).toNat = 1 := by
    rw [habs1, habs2]
    norm_num [pyint]
  rw [h1]
  have h2 : round ((imgWide.height : ℚ) * |(F0.cosSin 37).2| +
      (imgWide.width : ℚ) * |(F0.cosSin 37).1|) = 2 := by
    show round ((((1 : ℕ) : ℚ)) * |(12/13 : ℚ)| + (((2 : ℕ) : ℚ)) * |(5/13 : ℚ)|) = 2
    rw [habs1, habs2]
    norm_num [round_eq]
  rw [h2]
  norm_num

/-- C4 amended: for every image, a non-zero rotation produces a canvas whose
width is the truncation `int(h*|sin| + w*|cos|)` and whose height is
`int(h*|cos| + w*|sin|)` (Python `int()` truncation toward zero, not
rounding to nearest), using the transform's own cosine/sine entries; and
rotation by 0 is a strict no-op returning the input buffer itself. -/
theorem C4_rotate_dims_amended (F : Filters) (image : Image) (angle : ℤ)
    (hangle : angle ≠ 0)
    (hwa : ∀ M w h i, (F.warpAffine M w h i).width = w ∧ (F.warpAffine M w h i).height = h) :
    ((rotate_image F image angle).width =
      (pyint ((image.height : ℚ) * |(F.cosSin angle).2| +
              (image.width : ℚ) * |(F.cosSin angle).1|)).toNat ∧
     (rotate_image F image angle).height =
      (pyint ((image.height : ℚ) * |(F.cosSin angle).1| +
              (image.width : ℚ) * |(F.cosSin angle).2|)).toNat) ∧
    rotate_image F image 0 = image := by
  constructor
  · unfold rotate_image
    rw [if_neg hangle]
    exact ⟨(hwa _ _ _ _).1, (hwa _ _ _ _).2⟩
  · unfold rotate_image
    exact if_pos rfl

/-- Witness for the amended C4 at a concrete filter record and image. -/
theorem C4_rotate_dims_amended_witness :
    (37 : ℤ) ≠ 0 ∧
    (∀ M w h i, (F0.warpAffine M w h i).width = w ∧ (F0.warpAffine M w h i).height = h) ∧
    (((rotate_image F0 imgWide 37).width =
        (pyint ((imgWide.height : ℚ) * |(F0.cosSin 37).2| +
                (imgWide.width : ℚ) * |(F0.cosSin 37).1|)).toNat ∧
      (rotate_image F0 imgWide 37).height =
        (pyint ((imgWide.height : ℚ) * |(F0.cosSin 37).1| +
                (imgWide.width : ℚ) * |(F0.cosSin 37).2|)).toNat) ∧
     rotate_image F0 imgWide 0 = imgWide) :=
  ⟨by norm_num, fun M w h i => ⟨rfl, rfl⟩,
   C4_rotate_dims_amended F0 imgWide 37 (by norm_num) (fun M w h i => ⟨rfl, rfl⟩)⟩


theorem pyint_of_nonneg (q : ℚ) (h : 0 ≤ q) : pyint q = ⌊q⌋ := by
  unfold pyint
  rw [if_neg (not_lt.mpr h)]

/-- Modelled from the spec's words for comparison (claim C5): the output the
claim predicts for `crop(left=0.9, top=0.1, right=0.2, bottom=0.9)` — the
full width, and exactly the rows of the slice
`[int(0.1*height) : int(0.9*height)]`. -/
def cropSpecC5 (image : Image) : Image :=
  ⟨(pyint ((image.height : ℚ) * (9/10))).toNat - (pyint ((image.height : ℚ) * (1/10))).toNat,
   image.width, image.channels,
   fun c y x => image.px c ((pyint ((image.height : ℚ) * (1/10))).toNat + y) x⟩

/-- C5 counterexample: on a 1×1 image (a valid non-empty image), both
truncated vertical coordinates are 0, so the code resets the vertical range
to the full height and returns one row, while the claimed slice
`[int(0.1*1) : int(0.9*1)] = [0 : 0]` is empty — the claim's instance does
not hold for every image. -/
theorem C5_crop_counterexample :
    0 < (constImage 1 1 1 5).width ∧ 0 < (constImage 1 1 1 5).height ∧
    apply_crop (constImage 1 1 1 5) (9/10) (1/10) (2/10) (9/10) ≠
      cropSpecC5 (constImage 1 1 1 5) := by
  refine ⟨Nat.one_pos, Nat.one_pos, fun h => ?_⟩
  have hh := congrArg Image.height h
  have hL : (apply_crop (constImage 1 1 1 5) (9/10) (1/10) (2/10) (9/10)).height = 1 := by
    unfold apply_crop constImage
    dsimp only
    norm_num [pyint]
  have hR : (cropSpecC5 (constImage 1 1 1 5)).height = 0 := by
    unfold cropSpecC5 constImage
    dsimp only
    norm_num [pyint]
  rw [hL, hR] at hh
  exact absurd hh (by norm_num)

/-- C5 amended: for every image with positive width and height at least 2,
`crop(left=0.9, top=0.1, right=0.2, bottom=0.9)` resets the horizontal range
to the full width (since `int(0.9w) ≥ int(0.2w)`) and keeps exactly the rows
`[int(0.1*height) : int(0.9*height))` of the vertical slice; the per-axis
reset rule itself is as the claim states it, but the concrete instance needs
`height ≥ 2` (at height 1 both vertical coordinates truncate to 0 and the
vertical range also resets to the full height). -/
theorem C5_crop_amended (image : Image) (hw : 0 < image.width) (hh : 2 ≤ image.height) :
    apply_crop image (9/10) (1/10) (2/10) (9/10) = cropSpecC5 image := by
  have hwq : (0 : ℚ) ≤ (image.width : ℚ) := by positivity
  have hhq : (2 : ℚ) ≤ (image.height : ℚ) := by exact_mod_cast hh
  have e1 : pyint ((image.width : ℚ) * (2/10)) = ⌊(image.width : ℚ) * (2/10)⌋ :=
    pyint_of_nonneg _ (by positivity)
  have e2 : pyint ((image.width : ℚ) * (9/10)) = ⌊(image.width : ℚ) * (9/10)⌋ :=
    pyint_of_nonneg _ (by positivity)
  have e3 : pyint ((image.height : ℚ) * (1/10)) = ⌊(image.height : ℚ) * (1/10)⌋ :=
    pyint_of_nonneg _ (by positivity)
  have e4 : pyint ((image.height : ℚ) * (9/10)) = ⌊(image.height : ℚ) * (9/10)⌋ :=
    pyint_of_nonneg _ (by positivity)
  have hx : (pyint ((image.width : ℚ) * (2/10))).toNat ≤
      (pyint ((image.width : ℚ) * (9/10))).toNat := by
    rw [e1, e2]
    exact Int.toNat_le_toNat (Int.floor_le_floor
      (mul_le_mul_of_nonneg_left (by norm_num) hwq))
  have hy : ¬ ((pyint ((image.height : ℚ) * (9/10))).toNat ≤
      (pyint ((image.height : ℚ) * (1/10))).toNat) := by
    rw [e3, e4]
    have hfl : (⌊(image.height : ℚ) * (1/10)⌋ : ℚ) ≤ (image.height : ℚ) * (1/10) :=
      Int.floor_le _
    have hstep : ⌊(image.height : ℚ) * (1/10)⌋ + 1 ≤ ⌊(image.height : ℚ) * (9/10)⌋ := by
      apply Int.le_floor.mpr
      push_cast
      linarith
    have hnn : 0 ≤ ⌊(image.height : ℚ) * (1/10)⌋ := Int.floor_nonneg.mpr (by positivity)
    omega
  unfold apply_crop cropSpecC5
  dsimp only
  rw [if_pos hx, if_pos hx, if_neg hy, if_neg hy]
  simp

/-- Witness for the amended C5 at a concrete 3×2 image. -/
theorem C5_crop_amended_witness :
    0 < (constImage 2 3 1 9).width ∧ 2 ≤ (constImage 2 3 1 9).height ∧
    apply_crop (constImage 2 3 1 9) (9/10) (1/10) (2/10) (9/10) =
      cropSpecC5 (constImage 2 3 1 9) :=
  ⟨by norm_num [constImage], by norm_num [constImage],
   C5_crop_amended (constImage 2 3 1 9) (by norm_num [constImage]) (by norm_num [constImage])⟩

/-- C10: for every non-empty image and any crop fractions in `[0,1]`, the
crop stage returns a non-empty buffer — after the independent per-axis
resets the pixel bounds are strictly ordered, so the slice has width and
height at least 1. -/
theorem C10_crop_nonempty (image : Image) (l t r b : ℚ)
    (hw : 0 < image.width) (hh : 0 < image.height)
    (hl0 : 0 ≤ l) (hl1 : l ≤ 1) (ht0 : 0 ≤ t) (ht1 : t ≤ 1)
    (hr0 : 0 ≤ r) (hr1 : r ≤ 1) (hb0 : 0 ≤ b) (hb1 : b ≤ 1) :
    1 ≤ (apply_crop image l t r b).width ∧ 1 ≤ (apply_crop image l t r b).height := by
  unfold apply_crop
  dsimp only
  constructor
  · split
    · omega
    · omega
  · split
    · omega
    · omega

/-- Witness for C10 at a concrete image and fraction tuple. -/
theorem C10_crop_nonempty_witness :
    0 < (constImage 2 2 1 9).width ∧ 0 < (constImage 2 2 1 9).height ∧
    1 ≤ (apply_crop (constImage 2 2 1 9) (1/2) 0 1 1).width ∧
    1 ≤ (apply_crop (constImage 2 2 1 9) (1/2) 0 1 1).height :=
  ⟨by norm_num [constImage], by norm_num [constImage],
   (C10_crop_nonempty (constImage 2 2 1 9) (1/2) 0 1 1
      (by norm_num [constImage]) (by norm_num [constImage])
      (by norm_num) (by norm_num) (by norm_num) (by norm_num)
      (by norm_num) (by norm_num) (by norm_num) (by norm_num)).1,
   (C10_crop_nonempty (constImage 2 2 1 9) (1/2) 0 1 1
      (by norm_num [constImage]) (by norm_num [constImage])
      (by norm_num) (by norm_num) (by norm_num) (by norm_num)
      (by norm_num) (by norm_num) (by norm_num) (by norm_num)).2⟩


theorem land_zero_eq (g : ℕ) : Nat.land g 0 = 0 := Nat.and_zero g

theorem land_255_eq (g : ℕ) (h : g ≤ 255) : Nat.land g 255 = g := by
  have h2 : g &&& (2 ^ 8 - 1) = g := Nat.and_pow_two_sub_one_of_lt_two_pow (by omega)
  norm_num at h2
  exact h2

/-- Dilation with the single-cell structuring element leaves every sample
unchanged. -/
theorem dilate_single_px (img : Image) (c y x : ℕ) :
    (dilate seOffsets img).px c y x = img.px c y x := by
  show max 0 (pxZ img c ((y : ℤ) + 0) ((x : ℤ) + 0)) = img.px c y x
  simp [pxZ]

/-- Modelled from the spec's words for comparison (claim C6): the first pass
"combines the two smaller scales with weights 0.4 and 0.4 summed with an
implicit 0.2 residual of the input"; the second pass blends 0.6 of that
result with 0.4 of the largest-scale blur, as in the code. -/
def multi_scale_filter_specClaim (F : Filters) (image : Image) : Image :=
  let g1 := F.gaussianBlur 3 (1/2) image
  let g2 := F.gaussianBlur 5 1 image
  let g3 := F.gaussianBlur 7 (3/2) image
  let blended : Image :=
    ⟨g1.height, g1.width, g1.channels, fun c y x =>
      satRound ((2/5) * g1.px c y x + (2/5) * g2.px c y x + (1/5) * image.px c y x)⟩
  addWeighted blended (3/5) g3 (2/5) 0

/-- C6 counterexample: on the constant-100 image — on which every Gaussian
blur acts as the identity, a property the concrete filter record shares with
the real normalised kernels — the code's first pass gives
`round(0.4*100 + 0.4*100) = 80` and its second pass
`round(0.6*80 + 0.4*100) = 88`, while the claimed blend with the 0.2
residual would give 100: the code has no residual of the input in the first
pass. -/
theorem C6_moire_blend_counterexample :
    (∀ ks sigma hh ww cc vv,
        F0.gaussianBlur ks sigma (constImage hh ww cc vv) = constImage hh ww cc vv) ∧
    multi_scale_filter F0 (constImage 1 1 1 100) ≠
      multi_scale_filter_specClaim F0 (constImage 1 1 1 100) := by
  refine ⟨fun _ _ _ _ _ _ => rfl, fun h => ?_⟩
  have hp := congrArg (fun i => Image.px i 0 0 0) h
  dsimp only at hp
  have hinner : satRound ((2/5) * (((100 : ℕ) : ℚ)) + (2/5) * (((100 : ℕ) : ℚ)) + 0) = 80 := by
    have hq : (2/5 : ℚ) * (((100 : ℕ) : ℚ)) + (2/5) * (((100 : ℕ) : ℚ)) + 0 = ((80 : ℕ) : ℚ) := by
      push_cast
      norm_num
    rw [hq, satRound_natCast]
    norm_num
  have hcode : (multi_scale_filter F0 (constImage 1 1 1 100)).px 0 0 0 = 88 := by
    show satRound ((3/5) *
        ((satRound ((2/5) * (((100 : ℕ) : ℚ)) + (2/5) * (((100 : ℕ) : ℚ)) + 0) : ℕ) : ℚ) +
        (2/5) * (((100 : ℕ) : ℚ)) + 0) = 88
    rw [hinner]
    have hq : (3/5 : ℚ) * (((80 : ℕ) : ℚ)) + (2/5) * (((100 : ℕ) : ℚ)) + 0 = ((88 : ℕ) : ℚ) := by
      push_cast
      norm_num
    rw [hq, satRound_natCast]
    norm_num
  have hinner2 : satRound ((2/5) * (((100 : ℕ) : ℚ)) + (2/5) * (((100 : ℕ) : ℚ)) +
      (1/5) * (((100 : ℕ) : ℚ))) = 100 := by
    have hq : (2/5 : ℚ) * (((100 : ℕ) : ℚ)) + (2/5) * (((100 : ℕ) : ℚ)) +
        (1/5) * (((100 : ℕ) : ℚ)) = ((100 : ℕ) : ℚ) := by
      push_cast
      norm_num
    rw [hq, satRound_natCast]
    norm_num
  have hspec : (multi_scale_filter_specClaim F0 (constImage 1 1 1 100)).px 0 0 0 = 100 := by
    show satRound ((3/5) *
        ((satRound ((2/5) * (((100 : ℕ) : ℚ)) + (2/5) * (((100 : ℕ) : ℚ)) +
          (1/5) * (((100 : ℕ) : ℚ))) : ℕ) : ℚ) +
        (2/5) * (((100 : ℕ) : ℚ)) + 0) = 100
    rw [hinner2]
    have hq : (3/5 : ℚ) * (((100 : ℕ) : ℚ)) + (2/5) * (((100 : ℕ) : ℚ)) + 0 = ((100 : ℕ) : ℚ) := by
      push_cast
      norm_num
    rw [hq, satRound_natCast]
    norm_num
  rw [hcode, hspec] at hp
  exact absurd hp (by norm_num)

/-- C6 amended: the multi-scale smoothing computes the three Gaussian blurs
(3×3 σ0.5, 5×5 σ1.0, 7×7 σ1.5) and blends them in two passes with the
non-normalised coefficients used verbatim and no renormalisation, but the
first pass is `0.4*g1 + 0.4*g2` with no residual of the input (its weights
sum to 0.8); the second pass blends 0.6 of that result with 0.4 of the
largest-scale blur. -/
theorem C6_moire_blend_amended (F : Filters) (image : Image) (c y x : ℕ) :
    (multi_scale_filter F image).px c y x =
      satRound ((3/5) *
          ((satRound ((2/5) * (F.gaussianBlur 3 (1/2) image).px c y x +
                      (2/5) * (F.gaussianBlur 5 1 image).px c y x + 0) : ℕ) : ℚ) +
        (2/5) * (F.gaussianBlur 7 (3/2) image).px c y x + 0) := rfl

/-- C7: after cleanup of a loaded image, at every sample position the
single-channel baseline equals the grayscale intensity wherever the
inverted Gaussian adaptive-threshold mask (block 25, offset 15) marks
foreground (sample not above the local mean minus 15) and equals flat
white 255 elsewhere; equivalently it is the bitwise composite
`(gray AND mask) + (255 AND NOT mask)`. -/
theorem C7_cleanup_composite (F : Filters) (img : Image) (y x : ℕ)
    (h255 : (F.cvtBGR2GRAY img).px 0 y x ≤ 255)
    (hch : (F.cvtBGR2GRAY img).channels = 1) :
    (cleanup F img).channels = 1 ∧
    ((cleanup F img).px 0 y x =
      if F.gaussMean25 (F.cvtBGR2GRAY img) y x - 15 < ((F.cvtBGR2GRAY img).px 0 y x : ℚ)
      then 255
      else (F.cvtBGR2GRAY img).px 0 y x) ∧
    (cleanup F img).px 0 y x =
      Nat.land ((F.cvtBGR2GRAY img).px 0 y x)
          ((dilate seOffsets (adaptiveThresholdInvGauss F (F.cvtBGR2GRAY img))).px 0 y x) +
        Nat.land 255
          (255 - (dilate seOffsets (adaptiveThresholdInvGauss F (F.cvtBGR2GRAY img))).px 0 y x) := by
  have hpx : (cleanup F img).px 0 y x =
      min 255 (Nat.land ((F.cvtBGR2GRAY img).px 0 y x)
        ((dilate seOffsets (adaptiveThresholdInvGauss F (F.cvtBGR2GRAY img))).px 0 y x) +
        (255 - (dilate seOffsets (adaptiveThresholdInvGauss F (F.cvtBGR2GRAY img))).px 0 y x)) := rfl
  have hmask : (dilate seOffsets (adaptiveThresholdInvGauss F (F.cvtBGR2GRAY img))).px 0 y x =
      if F.gaussMean25 (F.cvtBGR2GRAY img) y x - 15 < ((F.cvtBGR2GRAY img).px 0 y x : ℚ)
      then 0 else 255 := dilate_single_px _ _ _ _
  refine ⟨hch, ?_, ?_⟩
  · rw [hpx, hmask]
    by_cases hcond : F.gaussMean25 (F.cvtBGR2GRAY img) y x - 15 <
        ((F.cvtBGR2GRAY img).px 0 y x : ℚ)
    · rw [if_pos hcond, if_pos hcond, land_zero_eq]
      omega
    · rw [if_neg hcond, if_neg hcond, land_255_eq _ h255]
      omega
  · rw [hpx, hmask]
    by_cases hcond : F.gaussMean25 (F.cvtBGR2GRAY img) y x - 15 <
        ((F.cvtBGR2GRAY img).px 0 y x : ℚ)
    · rw [if_pos hcond, land_zero_eq]
      have h1 : Nat.land 255 (255 - 0) = 255 := rfl
      rw [h1]
      omega
    · rw [if_neg hcond, land_255_eq _ h255]
      have h1 : Nat.land 255 (255 - 255) = 0 := rfl
      rw [h1]
      omega

/-- Witness for C7 at the concrete filter record and a colour image. -/
theorem C7_cleanup_composite_witness :
    (F0.cvtBGR2GRAY (constImage 2 2 3 100)).px 0 0 0 ≤ 255 ∧
    (F0.cvtBGR2GRAY (constImage 2 2 3 100)).channels = 1 ∧
    ((cleanup F0 (constImage 2 2 3 100)).channels = 1 ∧
     ((cleanup F0 (constImage 2 2 3 100)).px 0 0 0 =
       if F0.gaussMean25 (F0.cvtBGR2GRAY (constImage 2 2 3 100)) 0 0 - 15 <
           ((F0.cvtBGR2GRAY (constImage 2 2 3 100)).px 0 0 0 : ℚ)
       then 255
       else (F0.cvtBGR2GRAY (constImage 2 2 3 100)).px 0 0 0) ∧
     (cleanup F0 (constImage 2 2 3 100)).px 0 0 0 =
       Nat.land ((F0.cvtBGR2GRAY (constImage 2 2 3 100)).px 0 0 0)
           ((dilate seOffsets (adaptiveThresholdInvGauss F0
              (F0.cvtBGR2GRAY (constImage 2 2 3 100)))).px 0 0 0) +
         Nat.land 255
           (255 - (dilate seOffsets (adaptiveThresholdInvGauss F0
              (F0.cvtBGR2GRAY (constImage 2 2 3 100)))).px 0 0 0)) :=
  ⟨by decide, rfl, C7_cleanup_composite F0 (constImage 2 2 3 100) 0 0 (by decide) rfl⟩


/-- Samples of a constant image are bounded by the constant's bound. -/
theorem constImage_px_le (h w cc v : ℕ) (hv : v ≤ 255) :
    ∀ c y x, (constImage h w cc v).px c y x ≤ 255 := fun _ _ _ => hv

/-- C8: sharpening with weight 0 is a strict no-op — same geometry and the
same value sample for sample — and with weight 1 the output equals exactly
the convolution of the input with the 3×3 kernel whose centre is
`8*1 + 1 = 9` and whose eight neighbours are each `-1`, with zero blend-back
contribution from the un-convolved original. -/
theorem C8_sharpen_endpoints (image : Image)
    (h255 : ∀ c y x, image.px c y x ≤ 255) :
    ((adjust_sharpness image 0).height = image.height ∧
     (adjust_sharpness image 0).width = image.width ∧
     (adjust_sharpness image 0).channels = image.channels ∧
     ∀ c y x, (adjust_sharpness image 0).px c y x = image.px c y x) ∧
    ((adjust_sharpness image 1).height = image.height ∧
     (adjust_sharpness image 1).width = image.width ∧
     (adjust_sharpness image 1).channels = image.channels ∧
     ∀ c y x, (adjust_sharpness image 1).px c y x =
       (filter2D image (fun dy dx => if dy = 0 ∧ dx = 0 then 9 else -1)).px c y x) := by
  constructor
  · refine ⟨rfl, rfl, rfl, fun c y x => ?_⟩
    have hv : (adjust_sharpness image 0).px c y x =
        satRound ((1 - 0) * image.px c y x +
          0 * (filter2D image (sharpenKernel 0)).px c y x + 0) := rfl
    rw [hv]
    have harith : ((1 : ℚ) - 0) * image.px c y x +
        0 * (filter2D image (sharpenKernel 0)).px c y x + 0 =
        ((image.px c y x : ℕ) : ℚ) := by
      ring
    rw [harith, satRound_natCast _ (h255 c y x)]
  · refine ⟨rfl, rfl, rfl, fun c y x => ?_⟩
    have hker : sharpenKernel 1 = fun dy dx => if dy = 0 ∧ dx = 0 then 9 else -1 := by
      funext dy dx
      unfold sharpenKernel
      split
      · norm_num
      · norm_num
    have hv : (adjust_sharpness image 1).px c y x =
        satRound ((1 - 1) * image.px c y x +
          1 * (filter2D image (sharpenKernel 1)).px c y x + 0) := rfl
    rw [hv, hker]
    have harith : ((1 : ℚ) - 1) * image.px c y x +
        1 * (filter2D image (fun dy dx => if dy = 0 ∧ dx = 0 then 9 else -1)).px c y x + 0 =
        (((filter2D image (fun dy dx => if dy = 0 ∧ dx = 0 then 9 else -1)).px c y x : ℕ) : ℚ) := by
      ring
    have hle : (filter2D image
        (fun dy dx => if dy = 0 ∧ dx = 0 then (9 : ℚ) else -1)).px c y x ≤ 255 :=
      satRound_le_255 _
    rw [harith]
    exact satRound_natCast _ hle

/-- Witness for C8 at a concrete image. -/
theorem C8_sharpen_endpoints_witness :
    (∀ c y x, (constImage 2 2 1 7).px c y x ≤ 255) ∧
    (((adjust_sharpness (constImage 2 2 1 7) 0).height = (constImage 2 2 1 7).height ∧
      (adjust_sharpness (constImage 2 2 1 7) 0).width = (constImage 2 2 1 7).width ∧
      (adjust_sharpness (constImage 2 2 1 7) 0).channels = (constImage 2 2 1 7).channels ∧
      ∀ c y x, (adjust_sharpness (constImage 2 2 1 7) 0).px c y x =
        (constImage 2 2 1 7).px c y x) ∧
     ((adjust_sharpness (constImage 2 2 1 7) 1).height = (constImage 2 2 1 7).height ∧
      (adjust_sharpness (constImage 2 2 1 7) 1).width = (constImage 2 2 1 7).width ∧
      (adjust_sharpness (constImage 2 2 1 7) 1).channels = (constImage 2 2 1 7).channels ∧
      ∀ c y x, (adjust_sharpness (constImage 2 2 1 7) 1).px c y x =
        (filter2D (constImage 2 2 1 7)
          (fun dy dx => if dy = 0 ∧ dx = 0 then 9 else -1)).px c y x)) :=
  ⟨constImage_px_le 2 2 1 7 (by norm_num),
   C8_sharpen_endpoints (constImage 2 2 1 7) (constImage_px_le 2 2 1 7 (by norm_num))⟩

/-- C9: with a colour (3-channel) source loaded and the single-channel
cleaned baseline, the channel count of the recompute output depends on the
moire toggle alone — on: the pipeline starts from the pre-cleanup composite
and yields a 3-channel output; off: it starts from the baseline and yields
a 1-channel output — with all other parameters equal, assuming the three
opaque resampling primitives preserve the channel count (as the real ones
do). -/
theorem C9_output_channels (F : Filters) (p : Params) (st : AppState) (base old : Image)
    (hb : st.original_image = some base) (ho : st.original_image_old = some old)
    (hbase : base.channels = 1) (hold : old.channels = 3)
    (hwa : ∀ M w h i, (F.warpAffine M w h i).channels = i.channels)
    (hwp : ∀ M w h i, (F.warpPerspective M w h i).channels = i.channels)
    (hgb : ∀ ks sigma i, (F.gaussianBlur ks sigma i).channels = i.channels) :
    (update_processed_image F { p with moire := true } st).processed_image.map Image.channels
        = some 3 ∧
    (update_processed_image F { p with moire := false } st).processed_image.map Image.channels
        = some 1 := by
  unfold update_processed_image
  rw [hb, ho]
  constructor
  · dsimp only
    rw [Option.map_some']
    rw [applyAdjustments_channels F _ hwa hwp hgb, if_pos rfl,
      moireStage_channels F old hold]
  · dsimp only
    rw [Option.map_some']
    rw [applyAdjustments_channels F _ hwa hwp hgb, if_neg Bool.false_ne_true, hbase]

/-- Witness for C9 at the concrete filter record and loaded state. -/
theorem C9_output_channels_witness :
    stLoaded.original_image = some baseImg ∧
    stLoaded.original_image_old = some oldImg ∧
    baseImg.channels = 1 ∧ oldImg.channels = 3 ∧
    ((update_processed_image F0 { defaultParams with moire := true }
        stLoaded).processed_image.map Image.channels = some 3 ∧
     (update_processed_image F0 { defaultParams with moire := false }
        stLoaded).processed_image.map Image.channels = some 1) :=
  ⟨rfl, rfl, rfl, rfl,
   C9_output_channels F0 defaultParams stLoaded baseImg oldImg rfl rfl rfl rfl
     (fun _ _ _ _ => rfl) (fun _ _ _ _ => rfl) (fun _ _ _ => rfl)⟩

